import Mathlib

/-!
Shallow embedding of the remote-store client of this repository
(src/libstore/remote-store.cc): the stderr event loop
(Connection::processStderr), the ConnectionHandle wrapper and its
destructor, the connection handshake (initConnection) and facade poisoning
(openConnectionWrapper and the pool factory), setOptions, selected
operations (queryPathInfoUncached, querySubstitutablePathInfos,
addCAToStore, buildPathsWithResults), and a pool-usage trace model.

Pieces of the repository that the claims depend on but whose code is not
under src/ (pool.hh, worker-protocol.hh, globals.hh) are modelled from the
spec; each such definition carries a comment saying so.
-/

namespace RemoteStoreModel

/-! ## Byte-string helpers

`std::string::find(pat) != npos` is embedded as a scan over character
lists. -/

/-- Does `hay` start with `pat`?  Character-wise test, mirroring byte
comparison of C strings. -/
def listStartsWith : List Char → List Char → Bool
  | _, [] => true
  | [], _ :: _ => false
  | a :: as, b :: bs => a == b && listStartsWith as bs

/-- Substring search: mirrors `hay.find(pat) != std::string::npos`. -/
def hasSubstr : List Char → List Char → Bool
  | [], pat => listStartsWith [] pat
  | c :: t, pat => listStartsWith (c :: t) pat || hasSubstr t pat

/-- String-level substring test, the shape used by `e.msg().find(...)`. -/
def strContainsSub (hay pat : String) : Bool :=
  hasSubstr hay.toList pat.toList

/-! ## The stderr event stream (section 4.5 of the spec)

Messages arrive pre-decoded: each constructor stands for one tagged wire
message as Connection::processStderr decodes it (remote-store.cc:881-947).
`unknown` stands for any tag that is none of the STDERR_* constants. -/

/-- An error sent by the daemon via STDERR_ERROR.  For daemons with minor
version 26 or newer the wire carries a structured error record, for older
ones a (message, status) pair; both decode to a message and a status
(remote-store.cc:904-912). -/
structure DaemonError where
  msg : String
  status : Nat
  deriving DecidableEq, Repr

/-- The errors the event loop throws (C++ `throw Error(...)` inside
Connection::processStderr, plus the end-of-file error of a truncated
stream). -/
inductive LoopError
  | noSink
  | noSource
  | unknownMsgType (tag : Nat)
  | endOfFile
  deriving DecidableEq, Repr

/-- The message text of each thrown error, as the C++ format strings give
it.  The tag of `unknownMsgType` is carried in the constructor; the `%x`
placeholder of its format string is left unexpanded here.  The end-of-file
text is the one installed at remote-store.cc:67. -/
def LoopError.what : LoopError → String
  | .noSink => "no sink"
  | .noSource => "no source"
  | .unknownMsgType _ => "got unknown message type %x from Nix daemon"
  | .endOfFile => "Nix daemon disconnected unexpectedly (maybe it crashed?)"

/-- A field of a structured log message (readFields,
remote-store.cc:864-878). -/
inductive LogField
  | int (n : Nat)
  | str (s : String)
  deriving DecidableEq, Repr

/-- One decoded message of the stderr event stream. -/
inductive StderrMsg
  | write (s : String)
  | read (len : Nat)
  | error (e : DaemonError)
  | next (s : String)
  | startActivity (act lvl typ : Nat) (text : String) (fields : List LogField) (parent : Nat)
  | stopActivity (act : Nat)
  | result (act typ : Nat) (fields : List LogField)
  | last
  | unknown (tag : Nat)
  deriving DecidableEq, Repr

/-- How one run of Connection::processStderr ends: a normal return of the
null exception pointer (`done`, on STDERR_LAST), a normal return of a
captured exception (`captured`, on STDERR_ERROR), or a C++ `throw` that
escapes the loop (`thrown`). -/
inductive StderrResult
  | done
  | captured (e : DaemonError)
  | thrown (e : LoopError)
  deriving DecidableEq, Repr

/-- What a run of the event loop produced: its result plus the data handed
to the sink, the reply chunks written back to `to` (for STDERR_READ), and
the events forwarded to the logger. -/
structure StderrRun where
  result : StderrResult
  sinkOut : List String
  toOut : List String
  logs : List StderrMsg
  deriving DecidableEq, Repr

/-- Trailing-newline strip applied to STDERR_NEXT lines.  Modelled from the
spec: the `chomp` helper lives in a utility header that is not under src/;
it removes trailing line breaks. -/
def chomp (s : String) : String :=
  String.mk (((s.toList.reverse).dropWhile (fun c => c == Char.ofNat 10 || c == Char.ofNat 13)).reverse)

/-- The event loop, Connection::processStderr (remote-store.cc:881-947).
`hasSink` and `hasSource` say whether the caller supplied a sink and a
source; `src` lists the successive chunks the supplied source yields to
READ requests.  The loop reads one tagged message at a time; ERROR and
LAST are terminal returns, WRITE without a sink, READ without a source and
an unknown tag are C++ throws, and an exhausted stream is the EndOfFile
throw of the underlying `readNum`.  The `flush` parameter of the C++
signature only flushes buffered output and is not modelled. -/
def processStderrGo (hasSink hasSource : Bool) : List String → List StderrMsg → StderrRun
  | _, [] => ⟨.thrown .endOfFile, [], [], []⟩
  | src, .write s :: rest =>
    if hasSink then
      let r := processStderrGo hasSink hasSource src rest
      { r with sinkOut := s :: r.sinkOut }
    else ⟨.thrown .noSink, [], [], []⟩
  | src, .read _ :: rest =>
    if hasSource then
      let r := processStderrGo hasSink hasSource src.tail rest
      { r with toOut := src.headD "" :: r.toOut }
    else ⟨.thrown .noSource, [], [], []⟩
  | _, .error e :: _ => ⟨.captured e, [], [], []⟩
  | src, .next s :: rest =>
    let r := processStderrGo hasSink hasSource src rest
    { r with logs := .next (chomp s) :: r.logs }
  | src, .startActivity act lvl typ text fields parent :: rest =>
    let r := processStderrGo hasSink hasSource src rest
    { r with logs := .startActivity act lvl typ text fields parent :: r.logs }
  | src, .stopActivity act :: rest =>
    let r := processStderrGo hasSink hasSource src rest
    { r with logs := .stopActivity act :: r.logs }
  | src, .result act typ fields :: rest =>
    let r := processStderrGo hasSink hasSource src rest
    { r with logs := .result act typ fields :: r.logs }
  | _, .last :: _ => ⟨.done, [], [], []⟩
  | _, .unknown tag :: _ => ⟨.thrown (.unknownMsgType tag), [], [], []⟩

/-- A message the loop consumes and moves past without terminating:
log/progress messages always, WRITE when a sink is present, READ when a
source is present. -/
def benignMsg (hasSink hasSource : Bool) : StderrMsg → Bool
  | .write _ => hasSink
  | .read _ => hasSource
  | .next _ => true
  | .startActivity _ _ _ _ _ _ => true
  | .stopActivity _ => true
  | .result _ _ _ => true
  | .error _ => false
  | .last => false
  | .unknown _ => false

/-! ## Substring lemmas

Facts about the scan used to embed `std::string::find`, needed to reason
about messages extended by the dynamic-derivations compatibility shim. -/

theorem listStartsWith_append_of (a s p : List Char) (h : listStartsWith a p = true) :
    listStartsWith (a ++ s) p = true := by
  induction p generalizing a with
  | nil => cases a <;> simp [listStartsWith]
  | cons b bs ih =>
    cases a with
    | nil => simp [listStartsWith] at h
    | cons x xs =>
      simp [listStartsWith] at h ⊢
      exact ⟨h.1, ih xs h.2⟩

theorem hasSubstr_nil_pat (s : List Char) : hasSubstr s [] = true := by
  cases s <;> simp [hasSubstr, listStartsWith]

theorem hasSubstr_of_listStartsWith (m p : List Char) (h : listStartsWith m p = true) :
    hasSubstr m p = true := by
  cases m <;> simp [hasSubstr, h]

theorem hasSubstr_cons_of (c : Char) (t p : List Char) (h : hasSubstr t p = true) :
    hasSubstr (c :: t) p = true := by
  simp [hasSubstr, h]

theorem hasSubstr_append_left (m s p : List Char) (h : hasSubstr m p = true) :
    hasSubstr (m ++ s) p = true := by
  induction m with
  | nil =>
    simp only [hasSubstr] at h
    cases p with
    | nil => simpa using hasSubstr_nil_pat s
    | cons b bs => simp [listStartsWith] at h
  | cons c t ih =>
    simp only [hasSubstr, Bool.or_eq_true] at h
    rcases h with h | h
    · have := listStartsWith_append_of (c :: t) s p h
      simpa using hasSubstr_of_listStartsWith _ p this
    · simpa using hasSubstr_cons_of c (t ++ s) p (ih h)

theorem listStartsWith_append_split (a b p : List Char)
    (h : listStartsWith (a ++ b) p = true) :
    listStartsWith a p = true ∨
      ∃ p₂, p₂ ≠ [] ∧ listStartsWith b p₂ = true ∧ ∀ c ∈ p₂, c ∈ p := by
  induction p generalizing a with
  | nil => left; cases a <;> simp [listStartsWith]
  | cons q qs ih =>
    cases a with
    | nil =>
      right
      refine ⟨q :: qs, by simp, by simpa using h, fun c hc => hc⟩
    | cons x xs =>
      rw [List.cons_append] at h
      simp only [listStartsWith, Bool.and_eq_true, beq_iff_eq] at h
      obtain ⟨hxq, h2⟩ := h
      rcases ih xs h2 with hl | ⟨p₂, hne, hb, hsub⟩
      · left; simp [listStartsWith, hxq, hl]
      · right; exact ⟨p₂, hne, hb, fun c hc => List.mem_cons_of_mem _ (hsub c hc)⟩

theorem hasSubstr_append_cases (m s p : List Char) (h : hasSubstr (m ++ s) p = true) :
    hasSubstr m p = true ∨ hasSubstr s p = true ∨
      ∃ p₂, p₂ ≠ [] ∧ listStartsWith s p₂ = true ∧ ∀ c ∈ p₂, c ∈ p := by
  induction m with
  | nil => right; left; simpa using h
  | cons c t ih =>
    rw [List.cons_append] at h
    simp only [hasSubstr, Bool.or_eq_true] at h
    rcases h with h | h
    · have h2 : listStartsWith ((c :: t) ++ s) p = true := by
        simpa [List.cons_append] using h
      rcases listStartsWith_append_split (c :: t) s p h2 with hl | hr
      · exact Or.inl (hasSubstr_of_listStartsWith _ p hl)
      · exact Or.inr (Or.inr hr)
    · rcases ih h with h1 | h2 | h3
      · exact Or.inl (hasSubstr_cons_of c t p h1)
      · exact Or.inr (Or.inl h2)
      · exact Or.inr (Or.inr h3)

theorem listStartsWith_single (s : List Char) (c : Char) (rest : List Char)
    (h : listStartsWith s (c :: rest) = true) : listStartsWith s [c] = true := by
  cases s with
  | nil => simp [listStartsWith] at h
  | cons x xs =>
    simp only [listStartsWith, Bool.and_eq_true, beq_iff_eq] at h ⊢
    exact ⟨h.1, trivial⟩

/-- Appending a suffix that cannot start an occurrence of `p` (its head
character is in no position of `p`, and `p` does not occur inside it)
leaves the substring test unchanged. -/
theorem hasSubstr_append_excl (m s p : List Char)
    (h1 : hasSubstr s p = false)
    (h2 : ∀ c ∈ p, listStartsWith s [c] = false) :
    hasSubstr (m ++ s) p = hasSubstr m p := by
  cases hm : hasSubstr m p with
  | true => exact hasSubstr_append_left m s p hm
  | false =>
    cases hms : hasSubstr (m ++ s) p with
    | false => rfl
    | true =>
      exfalso
      rcases hasSubstr_append_cases m s p hms with h | h | ⟨p₂, hne, hb, hsub⟩
      · rw [hm] at h; exact Bool.false_ne_true h
      · rw [h1] at h; exact Bool.false_ne_true h
      · cases p₂ with
        | nil => exact hne rfl
        | cons c rest =>
          have hc : c ∈ p := hsub c (List.mem_cons_self c rest)
          have hs1 := listStartsWith_single s c rest hb
          rw [h2 c hc] at hs1
          exact Bool.false_ne_true hs1

theorem string_toList_append (a b : String) : (a ++ b).toList = a.toList ++ b.toList := by
  cases a; cases b; rfl

/-! ## The ConnectionHandle wrapper, its destructor and pool release

ConnectionHandle::processStderr (remote-store.cc:156-180) calls the
connection's event loop; a returned (captured) exception sets
`daemonException` and is rethrown, possibly after the dynamic-derivations
message rewrap; a thrown exception propagates without touching
`daemonException`.  The destructor (remote-store.cc:148-154) marks the
connection bad exactly when the stack is unwinding and `daemonException`
is not set. -/

/-- The suffix the dynamic-derivations compatibility shim appends to an
old daemon error about derivation parsing (remote-store.cc:175). -/
def shimSuffix : String :=
  ", this might be because the daemon is too old to understand dependencies on dynamic derivations. Check to see if the raw derivation is in the form 'DrvWithVersion(..)'"

/-- Guard of the rewrap at remote-store.cc:168-174: dynamic-derivations
experimental feature on, daemon minor at most 35, and the three substrings
of the old parse error present. -/
def shimFires (xpDynDrv : Bool) (minor : Nat) (m : String) : Bool :=
  xpDynDrv && decide (minor ≤ 35) && strContainsSub m "parsing derivation" &&
    strContainsSub m "expected string" && strContainsSub m "Derive(["

/-- The message the caller of ConnectionHandle::processStderr sees for a
daemon error whose original text is `m`. -/
def shimMsg (xpDynDrv : Bool) (minor : Nat) (m : String) : String :=
  if shimFires xpDynDrv minor m then m ++ shimSuffix else m

/-- An error escaping ConnectionHandle::processStderr: either one the
event loop threw, or the daemon's error rethrown from the captured
exception pointer. -/
inductive OpError
  | loop (e : LoopError)
  | daemon (msg : String) (status : Nat)
  deriving DecidableEq, Repr

/-- ConnectionHandle::processStderr (remote-store.cc:156-180): result and
the `daemonException` flag after the call.  `none` means the call returned
normally; `some e` means exception `e` is propagating.  `daemonException`
becomes true only on the captured-error path. -/
def handleProcessStderr (xpDynDrv : Bool) (minor : Nat) (hasSink hasSource : Bool)
    (src : List String) (msgs : List StderrMsg) : Option OpError × Bool :=
  match (processStderrGo hasSink hasSource src msgs).result with
  | .done => (none, false)
  | .thrown le => (some (.loop le), false)
  | .captured e => (some (.daemon (shimMsg xpDynDrv minor e.msg) e.status), true)

/-- ConnectionHandle::~ConnectionHandle (remote-store.cc:148-154): the bad
flag after the handle is dropped. -/
def handleDrop (daemonException unwinding wasBad : Bool) : Bool :=
  if !daemonException && unwinding then true else wasBad

/-- Modelled from the spec: pool.hh is not under src/.  Section 4.7 /
section 3: on release a live connection is re-enqueued unless its bad flag
is set; a bad connection is dropped, never re-pooled. -/
def repoolsOn (bad live : Bool) : Bool :=
  !bad && live

/-- The caller-visible outcome of one operation body around a single
event-loop drain: the error that reached the caller (if any), the
connection's bad flag, and whether the connection went back to the pool
(taking the transport to still be live). -/
structure OpOutcome where
  opResult : Option OpError
  bad : Bool
  repooled : Bool
  deriving DecidableEq, Repr

/-- A generic operation around one `conn.processStderr()` drain: if the
drain raises, the exception unwinds through the op body, the handle
destructor runs under `std::uncaught_exceptions()`, and the pool releases
the connection.  On a normal return the handle is dropped cleanly. -/
def opAfterDrain (xpDynDrv : Bool) (minor : Nat) (hasSink hasSource : Bool)
    (src : List String) (msgs : List StderrMsg) : OpOutcome :=
  match handleProcessStderr xpDynDrv minor hasSink hasSource src msgs with
  | (some e, dEx) =>
    let bad := handleDrop dEx true false
    { opResult := some e, bad := bad, repooled := repoolsOn bad true }
  | (none, _) =>
    { opResult := none, bad := false, repooled := repoolsOn false true }

/-! ## queryPathInfoUncached (remote-store.cc:263-282) -/

/-- Opaque stand-in for the UnkeyedValidPathInfo record read from the wire
after a valid reply; its layout is outside the event-loop state machine. -/
structure UnkeyedValidPathInfo where
  raw : String
  deriving DecidableEq, Repr

/-- Outcome of queryPathInfoUncached: the returned value or propagated
error, plus the connection's fate. -/
structure QpiOutcome where
  qpiResult : Except OpError (Option UnkeyedValidPathInfo)
  bad : Bool
  repooled : Bool
  deriving Repr

/-- queryPathInfoUncached (remote-store.cc:263-282).  The daemon's whole
response is `msgs` (the stderr stream) followed, when the stream ended
cleanly, by the `valid` flag and `info`.  The op passes no sink and no
source.  A caught error whose message contains "is not valid" yields a
null result and a clean handle drop; any other error is rethrown (the
handle destructor then runs while unwinding); a false `valid` flag yields
a null result. -/
def queryPathInfoUncached (xpDynDrv : Bool) (minor : Nat) (msgs : List StderrMsg)
    (valid : Bool) (info : UnkeyedValidPathInfo) : QpiOutcome :=
  match handleProcessStderr xpDynDrv minor false false [] msgs with
  | (some e, dEx) =>
    let m := match e with
      | .loop le => le.what
      | .daemon m _ => m
    if strContainsSub m "is not valid" then
      { qpiResult := .ok none, bad := false, repooled := repoolsOn false true }
    else
      let bad := handleDrop dEx true false
      { qpiResult := .error e, bad := bad, repooled := repoolsOn bad true }
  | (none, _) =>
    if valid then
      { qpiResult := .ok (some info), bad := false, repooled := repoolsOn false true }
    else
      { qpiResult := .ok none, bad := false, repooled := repoolsOn false true }

/-- The shim only ever appends text that cannot create a new occurrence of
"is not valid": the suffix starts with a comma, which occurs nowhere in
the pattern, and the pattern occurs nowhere in the suffix. -/
theorem strContainsSub_shimMsg (xpDynDrv : Bool) (minor : Nat) (m : String) :
    strContainsSub (shimMsg xpDynDrv minor m) "is not valid" =
      strContainsSub m "is not valid" := by
  unfold shimMsg
  cases shimFires xpDynDrv minor m with
  | false => simp
  | true =>
    simp only [if_true]
    unfold strContainsSub
    rw [string_toList_append]
    exact hasSubstr_append_excl _ _ _ (by decide) (by decide)

/-- None of the messages the event loop itself throws contains the
substring "is not valid". -/
theorem loopErrorWhat_not_isNotValid (le : LoopError) :
    strContainsSub le.what "is not valid" = false := by
  cases le <;> simp only [LoopError.what] <;> decide

/-! ## Handshake (initConnection, remote-store.cc:63-107) and facade
poisoning (remote-store.cc:23-60)

The wire constants and the version-splitting macros live in
worker-protocol.hh, which is not under src/; their values here are
modelled from the spec (section 6 and the literal scenario of section 8:
magics 0x6e697863 / 0x6478696f, client version 0x125).  The minimum
supported minor is not named by the spec; no theorem depends on its
value. -/

def WORKER_MAGIC_1 : Nat := 0x6e697863

def WORKER_MAGIC_2 : Nat := 0x6478696f

def PROTOCOL_VERSION : Nat := 0x125

/-- Modelled from the spec: the exact value of
MIN_SUPPORTED_MINOR_WORKER_PROTO_VERSION is given neither by src/ nor by
the spec; the theorems below treat it symbolically. -/
def minSupportedMinorWorkerProtoVersion : Nat := 18

/-- Modelled from the spec: protocol major is the high 8 bits of the low
16 (the C macro masks with 0xff00; comparing the shifted field is
equivalent). -/
def protocolMajor (v : Nat) : Nat := v / 256 % 256

/-- Modelled from the spec: protocol minor is the low 8 bits (the C macro
masks with 0x00ff). -/
def protocolMinor (v : Nat) : Nat := v % 256

/-- TrustedFlag as carried by the handshake. -/
inductive TrustedFlag
  | trusted
  | notTrusted
  deriving DecidableEq, Repr

/-- The negotiated fields of RemoteStore::Connection that the handshake
fills in (remote-store-connection.hh is summarised by spec section 3). -/
structure Connection where
  daemonVersion : Nat
  daemonNixVersion : Option String
  remoteTrustsUs : Option TrustedFlag
  deriving DecidableEq, Repr

/-- What the daemon sends during the handshake: the magic reply, its
version word, its version string (read only when minor is at least 33),
the trust flag (read only when minor is at least 35), and the greeting
stderr stream drained at step 8. -/
structure HandshakeInput where
  magic : Nat
  daemonVersion : Nat
  daemonNixVersion : String
  remoteTrustsUs : Option TrustedFlag
  greetingMsgs : List StderrMsg
  deriving DecidableEq, Repr

/-- The error wrap of the catch block at remote-store.cc:102-104. -/
def wrapOpenMsg (uri inner : String) : String :=
  "cannot open connection to remote store '" ++ uri ++ "': " ++ inner

/-- The body of the try block of RemoteStore::initConnection
(remote-store.cc:66-101): magic check, version checks, reading the
version-gated fields, and the stderr drain of step 8 whose captured error
is rethrown. -/
def initConnectionInner (inp : HandshakeInput) : Except String Connection :=
  if inp.magic != WORKER_MAGIC_2 then
    .error "protocol mismatch"
  else if protocolMajor inp.daemonVersion != protocolMajor PROTOCOL_VERSION then
    .error "Nix daemon protocol version not supported"
  else if protocolMinor inp.daemonVersion < minSupportedMinorWorkerProtoVersion then
    .error "the Nix daemon version is too old"
  else
    let conn : Connection :=
      { daemonVersion := inp.daemonVersion
        daemonNixVersion :=
          if 33 ≤ protocolMinor inp.daemonVersion then some inp.daemonNixVersion else none
        remoteTrustsUs :=
          if 35 ≤ protocolMinor inp.daemonVersion then inp.remoteTrustsUs else none }
    match (processStderrGo false false [] inp.greetingMsgs).result with
    | .done => .ok conn
    | .thrown le => .error le.what
    | .captured e => .error e.msg

/-- RemoteStore::initConnection (remote-store.cc:63-107), up to and
including the first stderr drain of step 8.  The subsequent setOptions
call stands outside the try block and is modelled separately.  An error
from any step inside the try block is wrapped by the catch
(remote-store.cc:102-104). -/
def initConnection (uri : String) (inp : HandshakeInput) : Except String Connection :=
  match initConnectionInner inp with
  | .ok conn => .ok conn
  | .error e => .error (wrapOpenMsg uri e)

/-- The fail-fast error of openConnectionWrapper (remote-store.cc:53). -/
def prevFailedMsg (uri : String) : String :=
  "opening a connection to remote store '" ++ uri ++ "' previously failed"

/-- Result of one run of the pool's connection factory: the facade's
`failed` flag afterwards, the produced connection or propagated error, and
whether openConnection was actually attempted. -/
structure FactoryResult where
  failed : Bool
  frResult : Except String Connection
  attempted : Bool
  deriving Repr

/-- The pool factory of the RemoteStore constructor (remote-store.cc:26-37)
composed with openConnectionWrapper (remote-store.cc:50-60): if the facade
already failed, throw the previously-failed error without connecting; else
attempt to open (outcome `openResult`), setting `failed` on failure; else
run initConnection, setting `failed` on failure. -/
def connectionFactory (uri : String) (failed : Bool) (openResult : Except String Unit)
    (inp : HandshakeInput) : FactoryResult :=
  if failed then
    { failed := true, frResult := .error (prevFailedMsg uri), attempted := false }
  else
    match openResult with
    | .error e => { failed := true, frResult := .error e, attempted := true }
    | .ok _ =>
      match initConnection uri inp with
      | .error e => { failed := true, frResult := .error e, attempted := true }
      | .ok conn => { failed := false, frResult := .ok conn, attempted := true }

/-! ## setOptions (remote-store.cc:110-145)

The preamble writes the named settings in fixed positions; the overrides
map is whatever `settings.getSettings` and `fileTransferSettings.getSettings`
return, minus the ten erased keys.  The `.name` strings of the settings
live in globals.hh, which is not under src/; they are modelled from the
spec as distinct strings (only their identity matters).  `verbosity` is a
process-wide global written directly in the preamble (remote-store.cc:116
uses the bare global, not a member of `settings`), so the settings
registry has no entry under that name. -/

def keepFailedName : String := "keep-failed"

def keepGoingName : String := "keep-going"

def tryFallbackName : String := "fallback"

def maxBuildJobsName : String := "max-jobs"

def maxSilentTimeName : String := "max-silent-time"

def buildCoresName : String := "cores"

def useSubstitutesName : String := "substitute"

def showTraceName : String := "show-trace"

def experimentalFeaturesName : String := "experimental-features"

def pluginFilesName : String := "plugin-files"

/-- Modelled from the spec: no setting of the registry is named
"verbosity" (the preamble's verbosity value comes from a global). -/
def verbosityName : String := "verbosity"

/-- `std::map::erase(key)`: drop the entry with that key. -/
def eraseKey (m : List (String × String)) (k : String) : List (String × String) :=
  m.filter (fun kv => kv.fst != k)

/-- The overrides map that setOptions writes after the fixed preamble:
the raw settings map with the ten erases of remote-store.cc:129-138
applied in order. -/
def setOptionsOverrides (raw : List (String × String)) : List (String × String) :=
  let m := eraseKey raw keepFailedName
  let m := eraseKey m keepGoingName
  let m := eraseKey m tryFallbackName
  let m := eraseKey m maxBuildJobsName
  let m := eraseKey m maxSilentTimeName
  let m := eraseKey m buildCoresName
  let m := eraseKey m useSubstitutesName
  let m := eraseKey m showTraceName
  let m := eraseKey m experimentalFeaturesName
  eraseKey m pluginFilesName

/-! ## querySubstitutablePathInfos (remote-store.cc:234-260) -/

/-- One substitutable-path-info record as decoded from the reply. -/
structure SubstitutablePathInfo where
  deriver : Option String
  references : List String
  downloadSize : Nat
  narSize : Nat
  deriving DecidableEq, Repr

/-- A request item written to the daemon, abstracted to the level the
claim needs: the op code and the version-gated argument encoding. -/
inductive WireWrite
  | opcode (n : Nat)
  | storePathSet (ps : List String)
  | storePathCAMap (m : List (String × String))
  deriving DecidableEq, Repr

/-- Modelled from the spec: the op code of QuerySubstitutablePathInfos
(worker-protocol.hh is not under src/; the value is immaterial to the
theorems). -/
def wopQuerySubstitutablePathInfos : Nat := 30

/-- Insert-or-assign into the infos map, the effect of
`infos[parseStorePath(...)]` on a `std::map`. -/
def upsertInfo (m : List (String × SubstitutablePathInfo)) (k : String)
    (v : SubstitutablePathInfo) : List (String × SubstitutablePathInfo) :=
  if m.any (fun kv => kv.fst == k) then
    m.map (fun kv => if kv.fst == k then (k, v) else kv)
  else
    m ++ [(k, v)]

/-- querySubstitutablePathInfos (remote-store.cc:234-260).  Returns
(acquired a connection, bytes written) and the updated infos map.  The
function returns at once on an empty paths map, before getConnection;
otherwise it writes the op code and, below daemon minor 22, just the key
set, else the full content-address map, then drains events and merges the
reply entries into `infos`. -/
def querySubstitutablePathInfos (minor : Nat) (pathsMap : List (String × String))
    (infos : List (String × SubstitutablePathInfo))
    (reply : List (String × SubstitutablePathInfo)) :
    (Bool × List WireWrite) × List (String × SubstitutablePathInfo) :=
  if pathsMap.isEmpty then
    ((false, []), infos)
  else
    let writes :=
      [WireWrite.opcode wopQuerySubstitutablePathInfos,
       if minor < 22 then WireWrite.storePathSet (pathsMap.map Prod.fst)
       else WireWrite.storePathCAMap pathsMap]
    ((true, writes), reply.foldl (fun acc kv => upsertInfo acc kv.fst kv.snd) infos)

/-! ## Pool-usage traces (pool.hh is not under src/)

Modelled from the spec, sections 3 and 4.7: the pool holds `capacity`,
an idle count, an in-flight count and the transient `activeInc` counter.
`get` prefers an idle connection, else constructs a new one while
in-flight is below capacity plus the raised amount, else blocks (`none`
in this single-threaded trace semantics).  `release` re-enqueues within
the base capacity, else drops the connection.  The traces below are the
pool events that addCAToStore and buildPathsWithResults perform, read off
remote-store.cc. -/

inductive PoolEvent
  | get
  | release
  | incCap
  | decCap
  | framedStart
  | framedEnd
  deriving DecidableEq, Repr

structure PoolSt where
  capacity : Nat
  idle : Nat
  inFlight : Nat
  activeInc : Nat
  deriving DecidableEq, Repr

/-- Modelled from the spec (section 4.7): one pool operation.  `none`
means the operation blocks (get with no idle connection and no room) or
is impossible in a well-formed trace (release with nothing in flight,
decCapacity with no active window). -/
def poolStep (s : PoolSt) : PoolEvent → Option PoolSt
  | .get =>
    if 0 < s.idle then
      some { s with idle := s.idle - 1, inFlight := s.inFlight + 1 }
    else if s.inFlight < s.capacity + s.activeInc then
      some { s with inFlight := s.inFlight + 1 }
    else
      none
  | .release =>
    if s.inFlight = 0 then none
    else if s.inFlight - 1 + (s.idle + 1) ≤ s.capacity then
      some { s with inFlight := s.inFlight - 1, idle := s.idle + 1 }
    else
      some { s with inFlight := s.inFlight - 1 }
  | .incCap => some { s with activeInc := s.activeInc + 1 }
  | .decCap =>
    if 0 < s.activeInc then some { s with activeInc := s.activeInc - 1 } else none
  | .framedStart => some s
  | .framedEnd => some s

def poolRun : List PoolEvent → PoolSt → Option PoolSt
  | [], s => some s
  | e :: es, s =>
    match poolStep s e with
    | some t => poolRun es t
    | none => none

/-- The pool invariant of spec section 8: in-flight plus idle stays within
capacity plus the active inc-capacity calls. -/
def poolInv (s : PoolSt) : Prop :=
  s.inFlight + s.idle ≤ s.capacity + s.activeInc

instance (s : PoolSt) : Decidable (poolInv s) := by
  unfold poolInv; infer_instance

/-- `k` sequential nested store calls made by the streamed source, each
acquiring and releasing one connection (the reentrant callbacks the
raised capacity exists for). -/
def nestedPairs : Nat → List PoolEvent
  | 0 => []
  | k + 1 => .get :: .release :: nestedPairs k

/-- The pool events of the daemon-minor-at-least-25 path of addCAToStore
(remote-store.cc:371-394): acquire, incCapacity, framed section with the
source's nested calls, then — whether the framed body completed or threw —
the Finally runs decCapacity and the handle is released.  On the throwing
path the terminating zero frame (framedEnd) is never written. -/
def addCAEvents (throws : Bool) (k : Nat) : List PoolEvent :=
  .get :: .incCap :: .framedStart ::
    (nestedPairs k ++ ((if throws then [] else [.framedEnd]) ++ [.decCap, .release]))

/-- The pool events of buildPaths (remote-store.cc:594-604): one handle,
acquired and released. -/
def buildPathsEvents : List PoolEvent := [.get, .release]

/-- The pool events of buildPathsWithResults (remote-store.cc:606-688):
one handle natively on daemon minor at least 34; below 34 the handle is
released (conn_.reset()) before buildPaths acquires its own. -/
def buildPathsWithResultsEvents (minor : Nat) : List PoolEvent :=
  if 34 ≤ minor then [.get, .release]
  else [.get, .release] ++ buildPathsEvents

/-- How many handles the caller of buildPathsWithResults holds after a
prefix of its pool events. -/
def heldStep (h : Nat) : PoolEvent → Nat
  | .get => h + 1
  | .release => h - 1
  | _ => h

/-- Checks that, stepping through `es` from `h` held handles, the held
count never exceeds `bound`. -/
def heldBoundedBy (bound : Nat) : Nat → List PoolEvent → Bool
  | _, [] => true
  | h, e :: es =>
    let h2 := heldStep h e
    decide (h2 ≤ bound) && heldBoundedBy bound h2 es

/-! ## Pool-trace lemmas -/

theorem poolRun_append (a b : List PoolEvent) (s : PoolSt) :
    poolRun (a ++ b) s = (poolRun a s).bind (fun t => poolRun b t) := by
  induction a generalizing s with
  | nil => rfl
  | cons e a ih =>
    simp only [List.cons_append, poolRun]
    cases poolStep s e with
    | none => rfl
    | some t => exact ih t

theorem nestedPairs_count_decCap (k : Nat) :
    (nestedPairs k).count PoolEvent.decCap = 0 := by
  induction k with
  | zero => rfl
  | succ k ih => simp [nestedPairs, List.count_cons, ih]

theorem nestedPairs_count_incCap (k : Nat) :
    (nestedPairs k).count PoolEvent.incCap = 0 := by
  induction k with
  | zero => rfl
  | succ k ih => simp [nestedPairs, List.count_cons, ih]

theorem nestedPairs_not_mem_decCap (k : Nat) : PoolEvent.decCap ∉ nestedPairs k := by
  induction k with
  | zero => simp [nestedPairs]
  | succ k ih => simp [nestedPairs, ih]

/-- The state invariant that holds at every nested-pair boundary inside
the raised-capacity window of addCAToStore: unchanged capacity, exactly
the one raised slot, the own handle still in flight, and in-flight plus
idle within the base capacity. -/
def windowInv (cap : Nat) (t : PoolSt) : Prop :=
  t.capacity = cap ∧ t.activeInc = 1 ∧ 1 ≤ t.inFlight ∧ t.inFlight + t.idle ≤ cap

/-- Inside the window, one nested get never blocks (this is what the
raised capacity is for) and the following release restores the boundary
invariant. -/
theorem pair_window (cap : Nat) (t : PoolSt) (h : windowInv cap t) :
    ∃ u, poolStep t .get = some u ∧
      ∃ v, poolStep u .release = some v ∧ windowInv cap v := by
  obtain ⟨hcap, hinc, hin, hsum⟩ := h
  by_cases hidle : 0 < t.idle
  · refine ⟨{ t with idle := t.idle - 1, inFlight := t.inFlight + 1 },
      by simp [poolStep, hidle], ?_⟩
    refine ⟨{ t with idle := t.idle - 1 + 1, inFlight := t.inFlight + 1 - 1 }, ?_, ?_⟩
    · simp only [poolStep]
      rw [if_neg (by simp), if_pos (by simp; omega)]
    · exact ⟨hcap, hinc, by simp; omega, by simp; omega⟩
  · refine ⟨{ t with inFlight := t.inFlight + 1 },
      by simp [poolStep, hidle]; omega, ?_⟩
    by_cases hle : t.inFlight + 1 - 1 + (t.idle + 1) ≤ t.capacity
    · refine ⟨{ t with inFlight := t.inFlight + 1 - 1, idle := t.idle + 1 }, ?_, ?_⟩
      · simp only [poolStep]
        rw [if_neg (by simp), if_pos (by simp; omega)]
      · exact ⟨hcap, hinc, by simp; omega, by simp; omega⟩
    · refine ⟨{ t with inFlight := t.inFlight + 1 - 1 }, ?_, ?_⟩
      · simp only [poolStep]
        rw [if_neg (by simp), if_neg (by simp; omega)]
      · exact ⟨hcap, hinc, by simp; omega, by simp; omega⟩

theorem nestedPairs_window (cap : Nat) :
    ∀ (k : Nat) (t : PoolSt), windowInv cap t →
      ∃ u, poolRun (nestedPairs k) t = some u ∧ windowInv cap u := by
  intro k
  induction k with
  | zero => exact fun t h => ⟨t, rfl, h⟩
  | succ k ih =>
    intro t h
    obtain ⟨u, hu, v, hv, hw⟩ := pair_window cap t h
    obtain ⟨w, hrun, hww⟩ := ih v hw
    refine ⟨w, ?_, hww⟩
    simp only [nestedPairs, poolRun, hu, hv]
    exact hrun

/-! ## Theorems -/

/-- The event loop consumes benign messages (log traffic, WRITE with a
sink, READ with a source) without changing how the run ends: the result
over `pre ++ rest` equals the result over `rest` alone from some advanced
source position. -/
theorem processStderrGo_result_benign (hasSink hasSource : Bool) :
    ∀ pre : List StderrMsg, (∀ m ∈ pre, benignMsg hasSink hasSource m = true) →
    ∀ (src : List String) (rest : List StderrMsg),
    ∃ src2, (processStderrGo hasSink hasSource src (pre ++ rest)).result =
      (processStderrGo hasSink hasSource src2 rest).result := by
  intro pre
  induction pre with
  | nil => exact fun _ src _ => ⟨src, rfl⟩
  | cons m pre ih =>
    intro hpre src rest
    have hm := hpre m (List.mem_cons_self m pre)
    have hpre2 : ∀ x ∈ pre, benignMsg hasSink hasSource x = true :=
      fun x hx => hpre x (List.mem_cons_of_mem m hx)
    cases m with
    | write s =>
      have hs : hasSink = true := by simpa [benignMsg] using hm
      simpa [processStderrGo, hs] using ih hpre2 src rest
    | read len =>
      have hs : hasSource = true := by simpa [benignMsg] using hm
      simpa [processStderrGo, hs] using ih hpre2 src.tail rest
    | next s =>
      simpa [processStderrGo] using ih hpre2 src rest
    | startActivity act lvl typ text fields parent =>
      simpa [processStderrGo] using ih hpre2 src rest
    | stopActivity act =>
      simpa [processStderrGo] using ih hpre2 src rest
    | result act typ fields =>
      simpa [processStderrGo] using ih hpre2 src rest
    | error e => simp [benignMsg] at hm
    | last => simp [benignMsg] at hm
    | unknown tag => simp [benignMsg] at hm

/-- C1 (counterexample).  The claim says the event loop itself never
throws; but Connection::processStderr throws on an unknown message tag
(remote-store.cc:943) even with both a sink and a source supplied — here
at the spec's own boundary example, tag 0x99 = 153.  The `thrown`
constructor is a C++ throw, distinct from the normal returns `captured`
and `done`. -/
theorem c1_event_loop_never_throws_counterexample :
    (processStderrGo true true [] [StderrMsg.unknown 153]).result =
      StderrResult.thrown (LoopError.unknownMsgType 153) := rfl

/-- C1 (amended).  After any run of handled benign traffic, an ERROR
message makes the event loop return the captured error normally (no
inline throw) and a LAST message makes it return the null exception
pointer; the loop is however not entirely non-throwing: it throws on
WRITE with no sink, READ with no source, and unknown tags
(remote-store.cc:881-947). -/
theorem c1_event_loop_error_capture (hasSink hasSource : Bool) (src : List String)
    (pre : List StderrMsg)
    (hpre : ∀ m ∈ pre, benignMsg hasSink hasSource m = true)
    (rest : List StderrMsg) (e : DaemonError) (s : String) (len tag : Nat) :
    (processStderrGo hasSink hasSource src (pre ++ StderrMsg.error e :: rest)).result =
      StderrResult.captured e
    ∧ (processStderrGo hasSink hasSource src (pre ++ StderrMsg.last :: rest)).result =
      StderrResult.done
    ∧ (hasSink = false →
        (processStderrGo hasSink hasSource src (StderrMsg.write s :: rest)).result =
          StderrResult.thrown LoopError.noSink)
    ∧ (hasSource = false →
        (processStderrGo hasSink hasSource src (StderrMsg.read len :: rest)).result =
          StderrResult.thrown LoopError.noSource)
    ∧ (processStderrGo hasSink hasSource src (StderrMsg.unknown tag :: rest)).result =
      StderrResult.thrown (LoopError.unknownMsgType tag) := by
  obtain ⟨src1, h1⟩ :=
    processStderrGo_result_benign hasSink hasSource pre hpre src (StderrMsg.error e :: rest)
  obtain ⟨src2, h2⟩ :=
    processStderrGo_result_benign hasSink hasSource pre hpre src (StderrMsg.last :: rest)
  refine ⟨?_, ?_, ?_, ?_, ?_⟩
  · rw [h1]; simp [processStderrGo]
  · rw [h2]; simp [processStderrGo]
  · intro h; subst h; simp [processStderrGo]
  · intro h; subst h; simp [processStderrGo]
  · simp [processStderrGo]

/-- C1 (witness): the amended statement at a concrete run, with no sink
and no source, one benign log line, and the error record ("boom", 1). -/
theorem c1_event_loop_error_capture_witness :
    (processStderrGo false false [] ([StderrMsg.next "scanning"] ++
        StderrMsg.error ⟨"boom", 1⟩ :: [])).result = StderrResult.captured ⟨"boom", 1⟩
    ∧ (processStderrGo false false [] ([StderrMsg.next "scanning"] ++
        StderrMsg.last :: [])).result = StderrResult.done
    ∧ (false = false →
        (processStderrGo false false [] (StderrMsg.write "x" :: [])).result =
          StderrResult.thrown LoopError.noSink)
    ∧ (false = false →
        (processStderrGo false false [] (StderrMsg.read 5 :: [])).result =
          StderrResult.thrown LoopError.noSource)
    ∧ (processStderrGo false false [] (StderrMsg.unknown 153 :: [])).result =
      StderrResult.thrown (LoopError.unknownMsgType 153) :=
  c1_event_loop_error_capture false false [] [StderrMsg.next "scanning"] (by decide)
    [] ⟨"boom", 1⟩ "x" 5 153

/-- C2 (counterexample).  The claim says that on WRITE with no sink the
event loop returns a ProtocolError to the caller; in the code the loop
does not return it — it throws (remote-store.cc:892), which is the
`thrown` result, not a `captured` (returned) error value. -/
theorem c2_write_no_sink_counterexample :
    (processStderrGo false true [] [StderrMsg.write "x"]).result =
      StderrResult.thrown LoopError.noSink := rfl

/-- C2 (amended).  WRITE with no sink, or READ with no source, is a
protocol violation: the event loop throws the corresponding error rather
than returning it as a captured value or completing normally; the
exception unwinds with `daemonException` unset, so the handle destructor
poisons the connection (bad := true) and the pool drops it instead of
re-enqueueing it, while the caller receives the error. -/
theorem c2_protocol_violation_poisons (xpDynDrv : Bool) (minor : Nat)
    (hasSink hasSource : Bool) (src : List String) (s : String) (len : Nat)
    (rest : List StderrMsg) :
    opAfterDrain xpDynDrv minor false hasSource src (StderrMsg.write s :: rest) =
      { opResult := some (OpError.loop LoopError.noSink), bad := true, repooled := false }
    ∧ opAfterDrain xpDynDrv minor hasSink false src (StderrMsg.read len :: rest) =
      { opResult := some (OpError.loop LoopError.noSource), bad := true, repooled := false } := by
  constructor <;>
    simp [opAfterDrain, handleProcessStderr, processStderrGo, handleDrop, repoolsOn]

/-- C3.  queryPathInfoUncached yields a null info in exactly two cases:
the stderr stream ended cleanly and the reply's valid flag is false, or
the daemon raised an error whose message contains "is not valid"; and in
the latter case the connection is not poisoned and goes back to the pool.
Stated over the original daemon message: the dynamic-derivations rewrap
neither adds nor removes an occurrence of the substring
(strContainsSub_shimMsg), and no loop-thrown error message contains it
(loopErrorWhat_not_isNotValid). -/
theorem c3_query_path_info_none_iff (xpDynDrv : Bool) (minor : Nat)
    (msgs : List StderrMsg) (valid : Bool) (info : UnkeyedValidPathInfo) :
    ((queryPathInfoUncached xpDynDrv minor msgs valid info).qpiResult = .ok none ↔
      ((∃ e : DaemonError, (processStderrGo false false [] msgs).result = .captured e ∧
          strContainsSub e.msg "is not valid" = true)
        ∨ ((processStderrGo false false [] msgs).result = .done ∧ valid = false)))
    ∧ (∀ e : DaemonError, (processStderrGo false false [] msgs).result = .captured e →
        strContainsSub e.msg "is not valid" = true →
        (queryPathInfoUncached xpDynDrv minor msgs valid info).bad = false ∧
        (queryPathInfoUncached xpDynDrv minor msgs valid info).repooled = true) := by
  unfold queryPathInfoUncached handleProcessStderr
  cases hres : (processStderrGo false false [] msgs).result with
  | done =>
    refine ⟨?_, ?_⟩
    · cases valid <;> simp
    · intro e he; simp at he
  | captured e =>
    dsimp only
    rw [strContainsSub_shimMsg]
    cases hc : strContainsSub e.msg "is not valid" with
    | true =>
      refine ⟨?_, ?_⟩
      · simp [hc, repoolsOn]
      · intro e2 he2 _
        simp [hc, repoolsOn]
    | false =>
      refine ⟨?_, ?_⟩
      · simp [hc, handleDrop, repoolsOn]
      · intro e2 he2 hc2
        rw [StderrResult.captured.injEq] at he2
        subst he2
        rw [hc] at hc2
        exact absurd hc2 (by simp)
  | thrown le =>
    dsimp only
    rw [loopErrorWhat_not_isNotValid]
    refine ⟨?_, ?_⟩
    · simp only [if_false, Bool.false_eq_true]
      constructor
      · intro h; simp [handleDrop, repoolsOn] at h
      · rintro (⟨e2, he2, _⟩ | ⟨he2, _⟩) <;> simp at he2
    · intro e2 he2 _; simp at he2

/-- C4.  Facade poisoning: once the facade's `failed` flag is set, every
factory run fails fast with the previously-failed error and attempts no
connection; any run whose result is an error leaves `failed` set; and
after any failing run, every subsequent run fails fast the same way. -/
theorem c4_sticky_failed (uri : String) (failed : Bool)
    (openResult : Except String Unit) (inp : HandshakeInput) :
    (failed = true → connectionFactory uri failed openResult inp =
      { failed := true, frResult := .error (prevFailedMsg uri), attempted := false })
    ∧ (∀ e, (connectionFactory uri failed openResult inp).frResult = .error e →
        (connectionFactory uri failed openResult inp).failed = true)
    ∧ (∀ e openResult2 inp2,
        (connectionFactory uri failed openResult inp).frResult = .error e →
        connectionFactory uri (connectionFactory uri failed openResult inp).failed
            openResult2 inp2 =
          { failed := true, frResult := .error (prevFailedMsg uri), attempted := false }) := by
  cases failed with
  | true => exact ⟨fun _ => rfl, fun _ _ => rfl, fun _ _ _ _ => rfl⟩
  | false =>
    refine ⟨by simp, ?_, ?_⟩
    · intro e he
      unfold connectionFactory at he ⊢
      cases openResult with
      | error e0 => rfl
      | ok _ =>
        simp only at he ⊢
        cases hinit : initConnection uri inp with
        | error e0 => simp [hinit]
        | ok conn => rw [hinit] at he; simp at he
    · intro e openResult2 inp2 he
      unfold connectionFactory at he ⊢
      cases openResult with
      | error e0 => rfl
      | ok _ =>
        simp only at he ⊢
        cases hinit : initConnection uri inp with
        | error e0 => simp [hinit]
        | ok conn => rw [hinit] at he; simp at he

/-- C5.  The handshake fails when the magic reply is wrong, when the
daemon's protocol major differs from the client's, and when its minor is
below the supported minimum; and every initConnection failure is wrapped
into "cannot open connection to remote store (uri): (inner)". -/
theorem c5_handshake_checks (uri : String) (inp : HandshakeInput) :
    (inp.magic ≠ WORKER_MAGIC_2 →
      initConnection uri inp = .error (wrapOpenMsg uri "protocol mismatch"))
    ∧ (inp.magic = WORKER_MAGIC_2 →
       protocolMajor inp.daemonVersion ≠ protocolMajor PROTOCOL_VERSION →
      initConnection uri inp =
        .error (wrapOpenMsg uri "Nix daemon protocol version not supported"))
    ∧ (inp.magic = WORKER_MAGIC_2 →
       protocolMajor inp.daemonVersion = protocolMajor PROTOCOL_VERSION →
       protocolMinor inp.daemonVersion < minSupportedMinorWorkerProtoVersion →
      initConnection uri inp =
        .error (wrapOpenMsg uri "the Nix daemon version is too old"))
    ∧ (∀ e, initConnection uri inp = .error e → ∃ inner, e = wrapOpenMsg uri inner) := by
  refine ⟨?_, ?_, ?_, ?_⟩
  · intro h
    simp [initConnection, initConnectionInner, bne_iff_ne, h]
  · intro h1 h2
    simp [initConnection, initConnectionInner, bne_iff_ne, h1, h2]
  · intro h1 h2 h3
    simp [initConnection, initConnectionInner, bne_iff_ne, h1, h2, h3]
  · intro e he
    unfold initConnection at he
    cases hinner : initConnectionInner inp with
    | ok conn => rw [hinner] at he; simp at he
    | error e0 =>
      rw [hinner] at he
      simp only [Except.error.injEq] at he
      exact ⟨e0, he.symm⟩

/-- C6.  After a successful handshake the daemon version string is
present exactly when the daemon minor is at least 33, and the trust flag
equals the wire value exactly when the minor is at least 35, remaining
unknown (none) for every older daemon. -/
theorem c6_version_gated_fields (uri : String) (inp : HandshakeInput) (conn : Connection)
    (h : initConnection uri inp = .ok conn) :
    (conn.daemonNixVersion.isSome = true ↔ 33 ≤ protocolMinor inp.daemonVersion)
    ∧ conn.remoteTrustsUs =
        (if 35 ≤ protocolMinor inp.daemonVersion then inp.remoteTrustsUs else none) := by
  unfold initConnection at h
  cases hinner : initConnectionInner inp with
  | error e0 => rw [hinner] at h; simp at h
  | ok conn0 =>
    rw [hinner] at h
    simp only [Except.ok.injEq] at h
    subst h
    unfold initConnectionInner at hinner
    by_cases h1 : inp.magic != WORKER_MAGIC_2
    · simp [h1] at hinner
    · by_cases h2 : protocolMajor inp.daemonVersion != protocolMajor PROTOCOL_VERSION
      · simp [h1, h2] at hinner
      · by_cases h3 :
          protocolMinor inp.daemonVersion < minSupportedMinorWorkerProtoVersion
        · simp [h1, h2, h3] at hinner
        · simp only [h1, h2, h3, if_false, Bool.false_eq_true] at hinner
          cases hres : (processStderrGo false false [] inp.greetingMsgs).result with
          | done =>
            rw [hres] at hinner
            simp only [Except.ok.injEq] at hinner
            subst hinner
            constructor
            · by_cases h33 : 33 ≤ protocolMinor inp.daemonVersion <;> simp [h33]
            · rfl
          | thrown le => rw [hres] at hinner; simp at hinner
          | captured e => rw [hres] at hinner; simp at hinner

/-- C6 (witness): the happy-path handshake of the spec (minor 37,
version string "2.18.1", NotTrusted on the wire, LAST greeting). -/
theorem c6_version_gated_fields_witness :
    ((Connection.mk 0x125 (some "2.18.1") (some TrustedFlag.notTrusted)).daemonNixVersion.isSome
        = true ↔
      33 ≤ protocolMinor (HandshakeInput.mk WORKER_MAGIC_2 0x125 "2.18.1"
        (some TrustedFlag.notTrusted) [StderrMsg.last]).daemonVersion)
    ∧ (Connection.mk 0x125 (some "2.18.1") (some TrustedFlag.notTrusted)).remoteTrustsUs =
        (if 35 ≤ protocolMinor (HandshakeInput.mk WORKER_MAGIC_2 0x125 "2.18.1"
            (some TrustedFlag.notTrusted) [StderrMsg.last]).daemonVersion
         then (HandshakeInput.mk WORKER_MAGIC_2 0x125 "2.18.1"
            (some TrustedFlag.notTrusted) [StderrMsg.last]).remoteTrustsUs
         else none) :=
  c6_version_gated_fields "daemon"
    (HandshakeInput.mk WORKER_MAGIC_2 0x125 "2.18.1"
      (some TrustedFlag.notTrusted) [StderrMsg.last])
    (Connection.mk 0x125 (some "2.18.1") (some TrustedFlag.notTrusted)) (by rfl)

/-- Closing the raised-capacity window: from a window-boundary state, the
Finally decCapacity and the handle release both succeed and re-establish
the pool invariant. -/
theorem window_close (cap : Nat) (u : PoolSt) (h : windowInv cap u) :
    ∃ s1, poolRun [PoolEvent.decCap, PoolEvent.release] u = some s1 ∧ poolInv s1 := by
  obtain ⟨hcap, hinc, hin, hsum⟩ := h
  have hdec : poolStep u .decCap =
      some (PoolSt.mk u.capacity u.idle u.inFlight (u.activeInc - 1)) := by
    simp only [poolStep]
    rw [if_pos (by omega)]
  by_cases hrel : u.inFlight - 1 + (u.idle + 1) ≤ u.capacity
  · refine ⟨PoolSt.mk u.capacity (u.idle + 1) (u.inFlight - 1) (u.activeInc - 1), ?_, ?_⟩
    · simp only [poolRun]
      rw [hdec]
      dsimp only [poolStep]
      rw [if_neg (by omega), if_pos (by omega)]
    · unfold poolInv
      simp
      omega
  · refine ⟨PoolSt.mk u.capacity u.idle (u.inFlight - 1) (u.activeInc - 1), ?_, ?_⟩
    · simp only [poolRun]
      rw [hdec]
      dsimp only [poolStep]
      rw [if_neg (by omega), if_neg (by omega)]
    · unfold poolInv
      simp
      omega

/-- C7.  On the daemon-minor-at-least-25 path of addCAToStore, the
incCapacity call comes strictly before the framed section starts; exactly
one decCapacity matches it and it runs after the framed section on every
exit path, the throwing one included (the Finally); and running the whole
trace from any pool state that satisfies the invariant (with no window
already open and the initial acquire able to proceed) succeeds and
preserves the invariant, the nested reentrant store calls of the streamed
source never blocking inside the window. -/
theorem c7_capacity_window (throws : Bool) (k : Nat) (s0 : PoolSt)
    (hInv : poolInv s0) (hInc : s0.activeInc = 0)
    (hRoom : 0 < s0.idle ∨ s0.inFlight < s0.capacity) :
    (addCAEvents throws k).take 3 =
      [PoolEvent.get, PoolEvent.incCap, PoolEvent.framedStart]
    ∧ (addCAEvents throws k).count PoolEvent.incCap = 1
    ∧ (addCAEvents throws k).count PoolEvent.decCap = 1
    ∧ (∃ pre, addCAEvents throws k = pre ++ [PoolEvent.decCap, PoolEvent.release] ∧
        PoolEvent.decCap ∉ pre)
    ∧ (∃ s1, poolRun (addCAEvents throws k) s0 = some s1 ∧ poolInv s1) := by
  have hInv2 : s0.inFlight + s0.idle ≤ s0.capacity + s0.activeInc := hInv
  refine ⟨rfl, ?_, ?_, ?_, ?_⟩
  · cases throws <;>
      simp [addCAEvents, List.count_cons, List.count_append, nestedPairs_count_incCap]
  · cases throws <;>
      simp [addCAEvents, List.count_cons, List.count_append, nestedPairs_count_decCap]
  · refine ⟨PoolEvent.get :: PoolEvent.incCap :: PoolEvent.framedStart ::
      (nestedPairs k ++ (if throws then [] else [PoolEvent.framedEnd])), ?_, ?_⟩
    · simp [addCAEvents, List.append_assoc]
    · cases throws <;> simp [nestedPairs_not_mem_decCap k]
  · have hs1 : ∃ s1, poolStep s0 .get = some s1 ∧ s1.capacity = s0.capacity ∧
        s1.activeInc = 0 ∧ 1 ≤ s1.inFlight ∧ s1.inFlight + s1.idle ≤ s0.capacity := by
      by_cases hidle : 0 < s0.idle
      · refine ⟨{ s0 with idle := s0.idle - 1, inFlight := s0.inFlight + 1 },
          by simp [poolStep, hidle], by simp, by simp [hInc], by simp, ?_⟩
        simp; omega
      · have hr : s0.inFlight < s0.capacity := by
          rcases hRoom with h | h
          · omega
          · exact h
        refine ⟨{ s0 with inFlight := s0.inFlight + 1 }, ?_, by simp, by simp [hInc],
          by simp, ?_⟩
        · simp only [poolStep]
          rw [if_neg hidle, if_pos (by omega)]
        · simp; omega
    obtain ⟨s1, hstep1, hc1, ha1, hf1, hsum1⟩ := hs1
    have hwin2 : windowInv s0.capacity { s1 with activeInc := s1.activeInc + 1 } := by
      refine ⟨by simp [hc1], by simp [ha1], by simp; omega, by simp; omega⟩
    obtain ⟨u, hrunu, hwinu⟩ :=
      nestedPairs_window s0.capacity k { s1 with activeInc := s1.activeInc + 1 } hwin2
    obtain ⟨sf, hclose, hfinv⟩ := window_close s0.capacity u hwinu
    refine ⟨sf, ?_, hfinv⟩
    unfold addCAEvents
    simp only [poolRun]
    rw [hstep1]
    dsimp only [poolStep]
    rw [poolRun_append, hrunu]
    dsimp only [Option.bind]
    cases throws with
    | true => exact hclose
    | false => exact hclose

/-- C7 (witness): a fresh pool of capacity 1, the happy exit path, and one
nested reentrant call inside the framed window. -/
theorem c7_capacity_window_witness :
    (addCAEvents false 1).take 3 =
      [PoolEvent.get, PoolEvent.incCap, PoolEvent.framedStart]
    ∧ (addCAEvents false 1).count PoolEvent.incCap = 1
    ∧ (addCAEvents false 1).count PoolEvent.decCap = 1
    ∧ (∃ pre, addCAEvents false 1 = pre ++ [PoolEvent.decCap, PoolEvent.release] ∧
        PoolEvent.decCap ∉ pre)
    ∧ (∃ s1, poolRun (addCAEvents false 1) (PoolSt.mk 1 0 0 0) = some s1 ∧ poolInv s1) :=
  c7_capacity_window false 1 (PoolSt.mk 1 0 0 0) (by decide) rfl (Or.inr (by decide))

/-- C8.  Below daemon minor 34, buildPathsWithResults releases its handle
before recursing into buildPaths, so its pool trace is acquire-release
followed by the recursive acquire-release: the caller never holds two
handles at once, and under a pool of capacity 1 the whole trace runs to
completion (no self-deadlock). -/
theorem c8_release_before_recurse (minor : Nat) (h : minor < 34) :
    buildPathsWithResultsEvents minor =
      [PoolEvent.get, PoolEvent.release] ++ buildPathsEvents
    ∧ heldBoundedBy 1 0 (buildPathsWithResultsEvents minor) = true
    ∧ (poolRun (buildPathsWithResultsEvents minor) (PoolSt.mk 1 0 0 0)).isSome = true := by
  have h34 : ¬ 34 ≤ minor := by omega
  have he : buildPathsWithResultsEvents minor =
      [PoolEvent.get, PoolEvent.release] ++ buildPathsEvents := by
    simp [buildPathsWithResultsEvents, h34]
  refine ⟨he, ?_, ?_⟩
  · rw [he]; decide
  · rw [he]; decide

/-- C8 (witness): the compat path at daemon minor 33. -/
theorem c8_release_before_recurse_witness :
    buildPathsWithResultsEvents 33 =
      [PoolEvent.get, PoolEvent.release] ++ buildPathsEvents
    ∧ heldBoundedBy 1 0 (buildPathsWithResultsEvents 33) = true
    ∧ (poolRun (buildPathsWithResultsEvents 33) (PoolSt.mk 1 0 0 0)).isSome = true :=
  c8_release_before_recurse 33 (by omega)

/-- C9.  The overrides map written after the fixed preamble carries none
of the named preamble settings nor the client-only settings: the ten
erased keys are gone by construction, and no "verbosity" key can occur
because the settings registry never produces one (the preamble's
verbosity is a global, not a member of `settings`). -/
theorem c9_overrides_exclusions (raw : List (String × String))
    (hverb : raw.all (fun kv => kv.fst != verbosityName) = true) :
    ∀ k, k ∈ [keepFailedName, keepGoingName, tryFallbackName, verbosityName,
        maxBuildJobsName, maxSilentTimeName, buildCoresName, useSubstitutesName,
        showTraceName, experimentalFeaturesName, pluginFilesName] →
      (setOptionsOverrides raw).all (fun kv => kv.fst != k) = true := by
  intro k hk
  rw [List.all_eq_true] at hverb ⊢
  intro kv hkv
  have hm : kv ∈ raw ∧ kv.fst ≠ keepFailedName ∧ kv.fst ≠ keepGoingName ∧
      kv.fst ≠ tryFallbackName ∧ kv.fst ≠ maxBuildJobsName ∧ kv.fst ≠ maxSilentTimeName ∧
      kv.fst ≠ buildCoresName ∧ kv.fst ≠ useSubstitutesName ∧ kv.fst ≠ showTraceName ∧
      kv.fst ≠ experimentalFeaturesName ∧ kv.fst ≠ pluginFilesName := by
    have := hkv
    simp only [setOptionsOverrides, eraseKey, List.mem_filter, bne_iff_ne] at this
    tauto
  obtain ⟨hraw, h1, h2, h3, h4, h5, h6, h7, h8, h9, h10⟩ := hm
  simp only [List.mem_cons, List.not_mem_nil, or_false] at hk
  rw [bne_iff_ne]
  rcases hk with rfl | rfl | rfl | rfl | rfl | rfl | rfl | rfl | rfl | rfl | rfl
  · exact h1
  · exact h2
  · exact h3
  · exact bne_iff_ne.mp (hverb kv hraw)
  · exact h4
  · exact h5
  · exact h6
  · exact h7
  · exact h8
  · exact h9
  · exact h10

/-- C9 (witness): a registry holding one unrelated override. -/
theorem c9_overrides_exclusions_witness :
    (setOptionsOverrides [("sandbox", "true")]).all
      (fun kv => kv.fst != keepFailedName) = true :=
  c9_overrides_exclusions [("sandbox", "true")] (by decide) keepFailedName (by decide)

/-- C10.  querySubstitutablePathInfos with an empty paths map returns at
once: no connection is acquired, nothing is written to the daemon, and
the infos map is left untouched. -/
theorem c10_empty_query_noop (minor : Nat) (pathsMap : List (String × String))
    (infos reply : List (String × SubstitutablePathInfo))
    (h : pathsMap = []) :
    querySubstitutablePathInfos minor pathsMap infos reply = ((false, []), infos) := by
  subst h; rfl

/-- C10 (witness): an empty request against a daemon at minor 22, with a
non-empty infos map that must come back unchanged. -/
theorem c10_empty_query_noop_witness :
    querySubstitutablePathInfos 22 []
      [("p1", SubstitutablePathInfo.mk none [] 0 0)]
      [("q1", SubstitutablePathInfo.mk none [] 5 7)] =
    ((false, []), [("p1", SubstitutablePathInfo.mk none [] 0 0)]) :=
  c10_empty_query_noop 22 []
    [("p1", SubstitutablePathInfo.mk none [] 0 0)]
    [("q1", SubstitutablePathInfo.mk none [] 5 7)] rfl

end RemoteStoreModel
